import Mathlib

/-!
Verification development for `mailto-mail-merge.py`.

The program is a single-file mail-merge tool: it reads contacts from a CSV
file, reads a message template, personalizes the template per contact,
builds `mailto:` URLs with percent-encoded query parameters, and renders an
HTML page with one list item per contact.  The definitions below are a
shallow embedding of the Python source (and of the Python standard-library
functions it calls: `urllib.parse.quote`, `urllib.parse.urlencode`,
`str.replace`, `str.join`, `str.split`, `csv.DictReader` key semantics).
Machine-level concerns do not arise: Python strings are sequences of
unicode scalar values, modelled by Lean `String`/`List Char`.
-/

namespace MailMerge

/-- Uppercase hexadecimal digit, as Python's `urllib.parse.quote` emits
(`'%%%02X' % b`). -/
def hexDigit (n : Nat) : Char :=
  if n < 10 then Char.ofNat (48 + n) else Char.ofNat (55 + n)

/-- UTF-8 encoding of one unicode scalar value, as the byte sequence that
Python's `urllib.parse.quote` percent-encodes for a non-safe character. -/
def utf8Bytes (c : Char) : List Nat :=
  let n := c.toNat
  if n < 128 then [n]
  else if n < 2048 then [192 + n / 64, 128 + n % 64]
  else if n < 65536 then [224 + n / 4096, 128 + (n / 64) % 64, 128 + n % 64]
  else [240 + n / 262144, 128 + (n / 4096) % 64, 128 + (n / 64) % 64, 128 + n % 64]

/-- The characters `urllib.parse.quote` never encodes (its `_ALWAYS_SAFE`
set): ASCII letters, ASCII digits, and `_`, `.`, `-`, `~`.  With `safe=''`,
as `urlencode` passes, nothing else is left unencoded. -/
def isUrlSafe (c : Char) : Bool :=
  c.isAlpha || c.isDigit || c == '_' || c == '.' || c == '-' || c == '~'

/-- Percent-encoding of one byte: `%` followed by two uppercase hex digits. -/
def pctByte (b : Nat) : String :=
  String.mk ['%', hexDigit (b / 16), hexDigit (b % 16)]

/-- Model of `urllib.parse.quote(s, safe='')`: safe characters pass through,
every other character is replaced by the percent-encoding of each of its
UTF-8 bytes.  In particular a space becomes `%20` (never `+`) and `/`
becomes `%2F`. -/
def quote (s : String) : String :=
  String.join (s.data.map (fun c =>
    if isUrlSafe c then String.singleton c
    else String.join ((utf8Bytes c).map pctByte)))

/-- Model of Python `sep.join(parts)`. -/
def pyJoin (sep : String) : List String → String
  | [] => ""
  | [x] => x
  | x :: y :: xs => x ++ sep ++ pyJoin sep (y :: xs)

/-- Model of `urllib.parse.urlencode(params, quote_via=urllib.parse.quote)`:
each key and value is quoted with `safe=''`, pairs are rendered `k=v` and
joined with `&`, in the order of the (insertion-ordered) dictionary. -/
def urlencode (params : List (String × String)) : String :=
  pyJoin "&" (params.map (fun kv => quote kv.1 ++ "=" ++ quote kv.2))

/-- The parameter dictionary built inside `generate_mailto` (source lines
56-67), as an insertion-ordered association list: `subject` first, then the
body parameter under `html-body` or `body` according to the flag, then `cc`
(joined with commas) only when the CC list is non-empty. -/
def mailtoParams (subject body : String) (cc_list : List String)
    (use_html_body : Bool) : List (String × String) :=
  [("subject", subject)]
  ++ (if use_html_body then [("html-body", body)] else [("body", body)])
  ++ (if cc_list.isEmpty then [] else [("cc", pyJoin "," cc_list)])

/-- `generate_mailto` (source lines 40-69). -/
def generate_mailto (email subject body : String) (cc_list : List String)
    (use_html_body : Bool) : String :=
  "mailto:" ++ email ++ "?" ++ urlencode (mailtoParams subject body cc_list use_html_body)

/-- Fuelled worker for `replaceList`; the fuel is an upper bound on the
length of the string still to scan, so the out-of-fuel branch is never
reached from `replaceList`.  Structural recursion on the fuel keeps the
function kernel-computable. -/
def replaceListAux : Nat → List Char → List Char → List Char → List Char
  | _, s, [], _ => s
  | _, [], _ :: _, _ => []
  | 0, s, _ :: _, _ => s
  | n + 1, c :: rest, p :: ps, rep =>
    if (p :: ps).isPrefixOf (c :: rest) then
      rep ++ replaceListAux n (rest.drop ps.length) (p :: ps) rep
    else
      c :: replaceListAux n rest (p :: ps) rep

/-- One pass of Python `str.replace` over character lists: leftmost match,
non-overlapping, scanning resumes after the replacement text.  (Python
treats an empty pattern specially; the program only ever replaces non-empty
patterns, and here an empty pattern leaves the string unchanged.) -/
def replaceList (s pat rep : List Char) : List Char :=
  replaceListAux s.length s pat rep

/-- Python `str.replace` on strings. -/
def pyReplace (s pat rep : String) : String :=
  String.mk (replaceList s.data pat.data rep.data)

/-- The per-contact personalization (source lines 201-203): first every
`{{Name}}` is replaced by the contact's name, then every `{{name}}` in the
resulting string. -/
def personalize (message name : String) : String :=
  pyReplace (pyReplace message "{{Name}}" name) "{{name}}" name

/-- Fuelled worker for `specPersonalize`: one left-to-right pass, replacing
each occurrence of `{{name}}` or `{{Name}}` (both 8 characters) by the name
value and never rescanning the inserted text. -/
def specPersonalizeAux : Nat → List Char → List Char → List Char
  | _, [], _ => []
  | 0, s, _ => s
  | n + 1, c :: rest, name =>
    if ("{{name}}".data).isPrefixOf (c :: rest)
        || ("{{Name}}".data).isPrefixOf (c :: rest) then
      name ++ specPersonalizeAux n (rest.drop 7) name
    else
      c :: specPersonalizeAux n rest name

/-- Personalization as the specification words it ("every literal
occurrence of the token `{{name}}` and every literal occurrence of
`{{Name}}` is replaced with the contact's name value, verbatim, ... no
recursive substitution"): a single simultaneous pass over the template in
which the substituted name value is never itself rescanned.  This is the
claimed behavior, written to be compared against `personalize`, which is
what the code does. -/
def specPersonalize (message name : String) : String :=
  String.mk (specPersonalizeAux message.data.length message.data name.data)

/-- Fuelled worker for `pySplit`: scan for the (non-empty) separator,
collecting the current piece in reverse in `acc`.  The fuel bounds the
length still to scan. -/
def splitListAux : Nat → List Char → List Char → List Char → List (List Char)
  | _, [], _, acc => [acc.reverse]
  | _, s, [], acc => [acc.reverse ++ s]
  | 0, s, _ :: _, acc => [acc.reverse ++ s]
  | n + 1, c :: rest, q :: qs, acc =>
    if (q :: qs).isPrefixOf (c :: rest) then
      acc.reverse :: splitListAux n (rest.drop qs.length) (q :: qs) []
    else
      splitListAux n rest (q :: qs) (c :: acc)

/-- Python `s.split(sep)` for a non-empty separator: the pieces between
non-overlapping leftmost occurrences of `sep`; empty pieces are kept, and
the empty string splits to `[""]`. -/
def pySplit (s sep : String) : List String :=
  (splitListAux s.data.length s.data sep.data []).map String.mk

/-- Python `s.strip()` with no argument: remove leading and trailing
whitespace.  (Python also strips some unicode space characters;
`Char.isWhitespace` covers space, tab, carriage return and newline, which
is exact for ASCII input.) -/
def pyStrip (s : String) : String :=
  String.mk ((((s.data.dropWhile Char.isWhitespace).reverse).dropWhile Char.isWhitespace).reverse)

/-- Python `s.endswith(sfx)`. -/
def pyEndsWith (s sfx : String) : Bool :=
  List.isSuffixOf sfx.data s.data

/-- CC parsing in `main` (source lines 142-146): Python
`[e.strip() for e in args.cc.split(",") if e.strip()]` when `args.cc` is
non-empty (truthy), else the empty list. -/
def parse_cc (cc : String) : List String :=
  if cc = "" then []
  else (pySplit cc ",").filterMap
    (fun e => if pyStrip e = "" then none else some (pyStrip e))

/-- Markdown conversion step of `main` (source lines 151-154): only when the
`--html-body` flag is set and the message path ends in `.md`, the message is
converted by the external `markdown.markdown` library (not part of this
repository, taken here as an arbitrary function `md`) and every literal
`>\n<` is then collapsed to `><` by `str.replace`. -/
def prepareMessage (use_html_body : Bool) (message_path message : String)
    (md : String → String) : String :=
  if use_html_body && pyEndsWith message_path ".md" then
    pyReplace (md message) ">\n<" "><"
  else message

/-- A row as `csv.DictReader` produces it: the header fieldnames paired with
the row's cell values, in header order; a short row is padded with `none`
(Python `None`), so every header name is present as a key.  (Cells beyond
the header would be collected under the non-string `restkey` `None`, which
the program never queries, so they are not modelled; header names are
assumed distinct, as `dict` would otherwise collapse duplicates.) -/
def makeDict (fieldnames : List String) (row : List String) : List (String × Option String) :=
  fieldnames.zip (row.map some ++ List.replicate (fieldnames.length - row.length) none)

/-- Python `k in row` for a `DictReader` row dict. -/
def hasKey (row : List (String × Option String)) (k : String) : Bool :=
  (row.map Prod.fst).contains k

/-- Python `row[k]` for a `DictReader` row dict: `none` when the key is
absent (a `KeyError` in Python), `some v` when present with value `v`
(which is itself `none` for a padded cell). -/
def getValue (row : List (String × Option String)) (k : String) : Option (Option String) :=
  List.lookup k row

/-- `read_csv` (source lines 11-23): `csv.DictReader` itself skips rows that
parse to the empty list (blank lines); the list comprehension then keeps the
rows whose dict has both an `email` and a `name` key. -/
def read_csv (fieldnames : List String) (rows : List (List String)) :
    List (List (String × Option String)) :=
  ((rows.filter (fun r => !r.isEmpty)).map (makeDict fieldnames)).filter
    (fun row => hasKey row "email" && hasKey row "name")

/-- The static lines the renderer emits before the per-contact list items
(source lines 157-195), verbatim. -/
def htmlHeaderLines : List String :=
  ["<!DOCTYPE html>",
   "<html>",
   "<head>",
   "<meta charset='utf-8'>",
   "<title>Mail Merge Links</title>",
   "<style>",
   ".clicked \x7b text-decoration: line-through; color: #666; \x7d",
   ".mailto-item \x7b margin: 10px 0; \x7d",
   "</style>",
   "<script>",
   "function markClicked(element) \x7b",
   "  element.classList.add('clicked');",
   "  // Store clicked state in localStorage",
   "  const clickedLinks = JSON.parse(localStorage.getItem('clickedMailtoLinks') || '[]');",
   "  const linkId = element.getAttribute('data-link-id');",
   "  if (!clickedLinks.includes(linkId)) \x7b",
   "    clickedLinks.push(linkId);",
   "    localStorage.setItem('clickedMailtoLinks', JSON.stringify(clickedLinks));",
   "  \x7d",
   "\x7d",
   "",
   "function restoreClickedState() \x7b",
   "  const clickedLinks = JSON.parse(localStorage.getItem('clickedMailtoLinks') || '[]');",
   "  clickedLinks.forEach(linkId => \x7b",
   "    const element = document.querySelector(`[data-link-id='$\x7blinkId\x7d']`);",
   "    if (element) \x7b",
   "      element.classList.add('clicked');",
   "    \x7d",
   "  \x7d);",
   "\x7d",
   "",
   "window.onload = restoreClickedState;",
   "</script>",
   "</head>",
   "<body>",
   "<h1>Mailto Links</h1>",
   "<ul>"]

/-- The per-link identifier (source line 210): the position index and the
email address with `@` replaced by `-at-` and `.` by `-dot-`. -/
def linkId (i : Nat) (email : String) : String :=
  "mailto-" ++ toString i ++ "-" ++ pyReplace (pyReplace email "@" "-at-") "." "-dot-"

/-- One generated list-item line (source lines 197-215): personalize the
message for the contact, build the `mailto:` URL, and format the `<li>`. -/
def listItem (i : Nat) (name email message subject : String)
    (cc_list : List String) (use_html_body : Bool) : String :=
  "<li class=\"mailto-item\" data-link-id=\"" ++ linkId i email
    ++ "\" onclick=\"markClicked(this)\">" ++ name ++ ": <a href=\""
    ++ generate_mailto email subject (personalize message name) cc_list use_html_body
    ++ "\">" ++ email ++ "</a></li>"

/-- All lines of the rendered page (source lines 157-217): static header,
one list item per contact in input order, then the closing tags. -/
def htmlLines (contacts : List (String × String)) (message subject : String)
    (cc_list : List String) (use_html_body : Bool) : List String :=
  htmlHeaderLines
  ++ contacts.enum.map (fun p =>
      listItem p.1 p.2.1 p.2.2 message subject cc_list use_html_body)
  ++ ["</ul>", "</body>", "</html>"]

/-- The parsed command line (source lines 83-122): the three required
string arguments and `--output` are `Option String` (`none` = not given),
`--cc` defaults to the empty string, `--html-body` is a flag. -/
structure CliArgs where
  contacts : Option String
  message : Option String
  subject : Option String
  output : Option String
  cc : String
  html_body : Bool

/-- Python truthiness of an optional string argument: absent (`None`) and
the empty string are both falsy — `main` tests `if not args.contacts:`. -/
def truthy : Option String → Bool
  | none => false
  | some s => s ≠ ""

/-- The missing-argument list `main` accumulates (source lines 125-131), in
the fixed order contacts, message, subject. -/
def missingArgs (a : CliArgs) : List String :=
  (if !truthy a.contacts then ["--contacts"] else [])
  ++ (if !truthy a.message then ["--message"] else [])
  ++ (if !truthy a.subject then ["--subject"] else [])

/-- The whole run of `main` (source lines 122-225) as a function of the
parsed arguments, the parsed contents of the contacts file (header plus
data rows), the contents of the message file, and the external markdown
converter.  `Except.error (msg, code)` models terminating with exit status
`code` after writing `msg` to stderr (or an uncaught exception for a
contact dict lookup that does not yield a string); `Except.ok html` models
a successful run whose produced output content is `html`. -/
def run (a : CliArgs) (fieldnames : List String) (rows : List (List String))
    (message_content : String) (md : String → String) : Except (String × Nat) String :=
  let missing := missingArgs a
  if missing.isEmpty then
    let cc_list := parse_cc a.cc
    let contacts := read_csv fieldnames rows
    let message := prepareMessage a.html_body (a.message.getD "") message_content md
    match contacts.mapM (fun row =>
      match getValue row "name", getValue row "email" with
      | some (some n), some (some e) => Except.ok (n, e)
      | _, _ => Except.error ("uncaught exception", 1)) with
    | Except.error e => Except.error e
    | Except.ok pairs =>
      Except.ok (pyJoin "\n" (htmlLines pairs message (a.subject.getD "") cc_list a.html_body))
  else
    Except.error ("Error: Missing required arguments: " ++ pyJoin ", " missing, 1)

/-- A rendered line is a list item when it starts with `<li` — the three
characters that open every generated item and no static line. -/
def isListItemLine (l : String) : Bool :=
  decide (l.data.take 3 = ['<', 'l', 'i'])

/-! ## Helper lemmas -/

/-- The fuelled replace worker ignores the fuel once it bounds the length
of the string still to scan. -/
theorem replaceListAux_irrel (n : Nat) :
    ∀ (m : Nat) (s pat rep : List Char), s.length ≤ n → s.length ≤ m →
      replaceListAux n s pat rep = replaceListAux m s pat rep := by
  induction n with
  | zero =>
    intro m s pat rep h1 _
    have hs : s = [] := List.eq_nil_of_length_eq_zero (Nat.le_zero.mp h1)
    subst hs
    cases m <;> cases pat <;> rfl
  | succ n ih =>
    intro m s pat rep h1 h2
    cases s with
    | nil => cases m <;> cases pat <;> rfl
    | cons c rest =>
      cases pat with
      | nil => cases m <;> rfl
      | cons p ps =>
        cases m with
        | zero => simp at h2
        | succ m =>
          simp only [replaceListAux]
          by_cases hp : (p :: ps).isPrefixOf (c :: rest)
          · simp only [hp, if_true]
            have hlen : (rest.drop ps.length).length ≤ n := by
              simp only [List.length_drop]
              simp only [List.length_cons] at h1
              omega
            have hlen' : (rest.drop ps.length).length ≤ m := by
              simp only [List.length_drop]
              simp only [List.length_cons] at h2
              omega
            rw [ih m (rest.drop ps.length) (p :: ps) rep hlen hlen']
          · simp only [hp, Bool.false_eq_true, if_false]
            have hlen : rest.length ≤ n := by
              simp only [List.length_cons] at h1
              omega
            have hlen' : rest.length ≤ m := by
              simp only [List.length_cons] at h2
              omega
            rw [ih m rest (p :: ps) rep hlen hlen']

/-- Unfolding equation: replacing in the empty string. -/
theorem replaceList_nil (pat rep : List Char) : replaceList [] pat rep = [] := by
  cases pat <;> rfl

/-- Unfolding equation: the step case of `replaceList`. -/
theorem replaceList_cons (c : Char) (rest : List Char) (p : Char) (ps rep : List Char) :
    replaceList (c :: rest) (p :: ps) rep
      = if (p :: ps).isPrefixOf (c :: rest) then
          rep ++ replaceList (rest.drop ps.length) (p :: ps) rep
        else
          c :: replaceList rest (p :: ps) rep := by
  show replaceListAux (rest.length + 1) (c :: rest) (p :: ps) rep = _
  simp only [replaceListAux]
  by_cases hp : (p :: ps).isPrefixOf (c :: rest)
  · simp only [hp, if_true, replaceList]
    rw [replaceListAux_irrel rest.length (rest.drop ps.length).length
      (rest.drop ps.length) (p :: ps) rep (by simp [List.length_drop]) le_rfl]
  · simp only [hp, Bool.false_eq_true, if_false, replaceList]

/-- Replacing a pattern that does not occur in the string is the identity. -/
theorem replaceList_of_not_infixOf (pat : Char) (pats : List Char) :
    ∀ (s rep : List Char), ¬ (pat :: pats) <:+: s → replaceList s (pat :: pats) rep = s := by
  intro s
  induction s with
  | nil => intro rep _; exact replaceList_nil _ _
  | cons c rest ih =>
    intro rep h
    rw [replaceList_cons]
    have hnp : ¬ (pat :: pats).isPrefixOf (c :: rest) := by
      intro hp
      exact h (List.IsPrefix.isInfix (List.isPrefixOf_iff_prefix.mp hp))
    simp only [hnp, Bool.false_eq_true, if_false]
    have : ¬ (pat :: pats) <:+: rest := by
      intro hi
      exact h (List.infix_cons_iff.mpr (Or.inr hi))
    rw [ih _ this]

/-- `filterMap` of "strip, keep if non-empty" is "strip everything, then
drop the empty pieces". -/
theorem filterMap_strip_eq (l : List String) :
    l.filterMap (fun e => if pyStrip e = "" then none else some (pyStrip e))
      = (l.map pyStrip).filter (fun e => e ≠ "") := by
  induction l with
  | nil => rfl
  | cons x xs ih =>
    simp only [List.filterMap_cons, List.map_cons, List.filter_cons]
    by_cases hx : pyStrip x = ""
    · simp [hx, ih]
    · simp [hx, ih]

/-! ## C1: shape and encoding of the default link -/

/-- C1: with an empty CC list and the alternate-body flag off, the link is
`mailto:` ++ email ++ `?subject=` ++ quote subject ++ `&body=` ++ quote
body — the recipient placed before `?` unencoded — and the value encoding
is the strict percent-encoding: space becomes `%20` (never `+`) and
reserved characters such as `/` are percent-encoded too. -/
theorem generate_mailto_default_link_shape :
    (∀ email subject body : String,
      generate_mailto email subject body [] false
        = "mailto:" ++ email ++ "?subject=" ++ quote subject ++ "&body=" ++ quote body)
    ∧ quote " " = "%20" ∧ quote "/" = "%2F" ∧ quote "+" = "%2B" := by
  refine ⟨fun email subject body => ?_, by decide, by decide, by decide⟩
  show "mailto:" ++ email ++ "?" ++ urlencode (mailtoParams subject body [] false) = _
  have h : urlencode (mailtoParams subject body [] false)
      = ("subject" ++ "=" ++ quote subject) ++ "&" ++ ("body" ++ "=" ++ quote body) := by
    show pyJoin "&" [quote "subject" ++ "=" ++ quote subject,
      quote "body" ++ "=" ++ quote body] = _
    rw [show quote "subject" = "subject" from rfl, show quote "body" = "body" from rfl]
    rfl
  rw [h]
  apply String.ext
  simp only [String.data_append, List.append_assoc]
  rfl

/-! ## C2: the query parameters always present -/

/-- C2: for every input, the parameter list passed to `urlencode` contains
the `subject` key exactly once and exactly one body parameter, whose key is
`body` when the flag is off and `html-body` when it is on (and never the
other one). -/
theorem mailtoParams_subject_and_single_body_key
    (subject body : String) (cc_list : List String) (use_html_body : Bool) :
    ((mailtoParams subject body cc_list use_html_body).map Prod.fst).count "subject" = 1
    ∧ ((mailtoParams subject body cc_list use_html_body).map Prod.fst).count
        (if use_html_body then "html-body" else "body") = 1
    ∧ ((mailtoParams subject body cc_list use_html_body).map Prod.fst).count
        (if use_html_body then "body" else "html-body") = 0 := by
  cases use_html_body <;> cases cc_list <;>
    simp [mailtoParams, List.count_cons]

/-! ## C3: the `cc` parameter and CC parsing -/

/-- C3: a non-empty CC list yields exactly one `cc` parameter whose value is
the comma-join of the list in caller-supplied order (no sorting, no
deduplication); in the URL the join is appended percent-encoded as a single
unit; an empty CC list yields no `cc` parameter; and the driver parses the
CC string by splitting on commas, stripping each piece, and keeping the
non-empty pieces in order. -/
theorem cc_param_and_cc_parsing :
    (∀ (subject body : String) (u : Bool) (c : String) (cs : List String),
      (mailtoParams subject body (c :: cs) u).filter (fun kv => kv.1 == "cc")
        = [("cc", pyJoin "," (c :: cs))])
    ∧ (∀ (email subject body : String) (u : Bool) (c : String) (cs : List String),
      generate_mailto email subject body (c :: cs) u
        = generate_mailto email subject body [] u ++ "&cc="
          ++ quote (pyJoin "," (c :: cs)))
    ∧ (∀ (subject body : String) (u : Bool),
      (mailtoParams subject body [] u).filter (fun kv => kv.1 == "cc") = [])
    ∧ (∀ cc : String,
      parse_cc cc = ((pySplit cc ",").map pyStrip).filter (fun e => e ≠ "")) := by
  refine ⟨?_, ?_, ?_, ?_⟩
  · intro subject body u c cs
    cases u <;> rfl
  · intro email subject body u c cs
    cases u <;>
    · apply String.ext
      simp only [generate_mailto, urlencode, mailtoParams, List.isEmpty_cons,
        List.isEmpty_nil, if_false, if_true, List.append_nil, List.map_cons,
        List.map_nil, pyJoin, String.data_append, List.append_assoc]
      rfl
  · intro subject body u
    cases u <;> rfl
  · intro cc
    unfold parse_cc
    by_cases hcc : cc = ""
    · subst hcc
      decide
    · rw [if_neg hcc]
      exact filterMap_strip_eq _

/-- `replaceList` with a non-empty pattern that does not occur in the
string is the identity. -/
theorem replaceList_not_occurs (pat : List Char) (hne : pat ≠ []) (s rep : List Char)
    (h : ¬ pat <:+: s) : replaceList s pat rep = s := by
  match pat, hne with
  | p :: ps, _ => exact replaceList_of_not_infixOf p ps s rep h

/-! ## C4: personalization -/

/-- C4 fails on the code: with template `{{Name}}` and name value
`x{{name}}`, verbatim substitution with no recursive replacement (the
claim, `specPersonalize`) yields `x{{name}}`, but the code's second
replacement pass rewrites the `{{name}}` token contained in the substituted
name value, producing `xx{{name}}`. -/
theorem personalize_recursive_substitution_cex :
    specPersonalize "{{Name}}" "x{{name}}" = "x{{name}}"
    ∧ personalize "{{Name}}" "x{{name}}" = "xx{{name}}"
    ∧ personalize "{{Name}}" "x{{name}}" ≠ specPersonalize "{{Name}}" "x{{name}}" :=
  ⟨by decide, by decide, by decide⟩

/-- C4 amended: personalization performs two sequential global
replacements — every `{{Name}}` first, then every `{{name}}` in the result
— so a template containing neither token is returned unchanged, both
tokens are replaced with the name value (unescaped), other casing forms are
not recognized, but a `{{name}}` token contained in the substituted name
value is itself replaced by the second pass. -/
theorem personalize_amended :
    (∀ message name : String,
      ¬ ("{{name}}".data <:+: message.data) → ¬ ("{{Name}}".data <:+: message.data) →
      personalize message name = message)
    ∧ personalize "Hello {{name}}, dear {{Name}}!" "Alice" = "Hello Alice, dear Alice!"
    ∧ personalize "{{NAME}} {{name}}" "Bob" = "{{NAME}} Bob"
    ∧ personalize "{{Name}}" "x{{name}}" = "xx{{name}}" := by
  refine ⟨?_, by decide, by decide, by decide⟩
  intro message name h1 h2
  apply String.ext
  show replaceList (replaceList message.data ("{{Name}}".data) name.data)
    ("{{name}}".data) name.data = message.data
  rw [replaceList_not_occurs ("{{Name}}".data) (by decide) _ _ h2,
    replaceList_not_occurs ("{{name}}".data) (by decide) _ _ h1]

/-- Witness for the amended C4 theorem at a concrete token-free template. -/
theorem personalize_amended_witness :
    personalize "no tokens here" "Alice" = "no tokens here" :=
  personalize_amended.1 "no tokens here" "Alice" (by decide) (by decide)

/-! ## C5: markdown conversion and newline collapsing -/

/-- Decomposition of a collapsed string: a head character other than `>`
comes directly from the scanned string. -/
theorem replaceList_head (t : List Char) (ws : List Char) (c0 : Char)
    (h : replaceList t ['>', '\n', '<'] ['>', '<'] = c0 :: ws) (hne : c0 ≠ '>') :
    ∃ t2, t = c0 :: t2 ∧ replaceList t2 ['>', '\n', '<'] ['>', '<'] = ws := by
  cases t with
  | nil => rw [replaceList_nil] at h; exact absurd h (by simp)
  | cons c rest =>
    rw [replaceList_cons] at h
    by_cases hp : (['>', '\n', '<'] : List Char).isPrefixOf (c :: rest)
    · rw [if_pos hp] at h
      injection h with hc _
      exact absurd hc.symm hne
    · rw [if_neg hp] at h
      injection h with hc hw
      exact ⟨rest, by rw [hc], hw⟩

/-- After collapsing, no occurrence of `>\n<` remains anywhere in the
result (fuelled induction on the scanned length). -/
theorem collapse_no_pattern :
    ∀ (n : Nat) (s : List Char), s.length ≤ n →
      ¬ (['>', '\n', '<'] <:+: replaceList s ['>', '\n', '<'] ['>', '<']) := by
  intro n
  induction n with
  | zero =>
    intro s hs
    have : s = [] := List.eq_nil_of_length_eq_zero (Nat.le_zero.mp hs)
    subst this
    rw [replaceList_nil]
    simp
  | succ n ih =>
    intro s hs
    cases s with
    | nil => rw [replaceList_nil]; simp
    | cons c rest =>
      rw [replaceList_cons]
      by_cases hp : (['>', '\n', '<'] : List Char).isPrefixOf (c :: rest)
      · rw [if_pos hp]
        obtain ⟨t, ht⟩ := List.isPrefixOf_iff_prefix.mp hp
        have hc : c = '>' := by injection ht with h1 _; exact h1.symm
        have hrest : rest = '\n' :: '<' :: t := by injection ht with _ h2; exact h2.symm
        have hdrop : rest.drop 2 = t := by rw [hrest]; rfl
        intro hinf
        rcases List.infix_cons_iff.mp hinf with hpre | hinf2
        · rcases List.cons_prefix_cons.mp hpre with ⟨_, hpre2⟩
          rcases List.cons_prefix_cons.mp hpre2 with ⟨hbad, _⟩
          exact absurd hbad (by decide)
        · rcases List.infix_cons_iff.mp hinf2 with hpre | hinf3
          · rcases List.cons_prefix_cons.mp hpre with ⟨hbad, _⟩
            exact absurd hbad (by decide)
          · refine ih (rest.drop 2) ?_ (by simpa [hdrop] using hinf3)
            simp only [List.length_drop]
            simp only [List.length_cons] at hs
            omega
      · rw [if_neg hp]
        intro hinf
        rcases List.infix_cons_iff.mp hinf with hpre | hinf2
        · rcases List.cons_prefix_cons.mp hpre with ⟨hc, hpre2⟩
          rcases hpre2 with ⟨tl, htl⟩
          obtain ⟨t2, ht2, hrest2⟩ := replaceList_head rest ('<' :: tl) '\n'
            (by simpa using htl.symm) (by decide)
          obtain ⟨t3, ht3, _⟩ := replaceList_head t2 tl '<' hrest2 (by decide)
          apply hp
          rw [List.isPrefixOf_iff_prefix, ← hc, ht2, ht3]
          exact ⟨t3, rfl⟩
        · refine ih rest ?_ hinf2
          simp only [List.length_cons] at hs
          omega

/-- C5: the template is markdown-converted (followed by the `>\n<` → `><`
collapse) exactly when the alternate-body flag is set and the message path
ends in `.md`; otherwise it is passed through unchanged.  After conversion
no `>` + newline + `<` sequence survives anywhere in the (decoded) body. -/
theorem markdown_conversion_iff_and_collapse
    (u : Bool) (path message : String) (md : String → String) :
    (¬ (u = true ∧ pyEndsWith path ".md" = true) →
      prepareMessage u path message md = message)
    ∧ (u = true → pyEndsWith path ".md" = true →
      prepareMessage u path message md = pyReplace (md message) ">\n<" "><"
      ∧ ¬ (['>', '\n', '<'] <:+: (prepareMessage u path message md).data)) := by
  constructor
  · intro h
    unfold prepareMessage
    cases u with
    | false => rw [Bool.false_and, if_neg (by simp)]
    | true =>
      cases hm : pyEndsWith path ".md" with
      | false => rw [Bool.true_and, if_neg (by simp)]
      | true => exact absurd ⟨rfl, hm⟩ h
  · intro hu hm
    subst hu
    have hcond : prepareMessage true path message md = pyReplace (md message) ">\n<" "><" := by
      unfold prepareMessage
      rw [hm, Bool.true_and, if_pos rfl]
    refine ⟨hcond, ?_⟩
    rw [hcond]
    exact collapse_no_pattern (md message).data.length (md message).data le_rfl

/-- Witness for C5 at a concrete `.md` path, flag set, identity converter. -/
theorem markdown_conversion_iff_and_collapse_witness :
    prepareMessage true "m.md" "<p>\n</p>" id = pyReplace "<p>\n</p>" ">\n<" "><"
    ∧ ¬ (['>', '\n', '<'] <:+: (prepareMessage true "m.md" "<p>\n</p>" id).data) :=
  (markdown_conversion_iff_and_collapse true "m.md" "<p>\n</p>" id).2 rfl (by decide)

/-! ## C6: the contact loader's row filter -/

/-- The keys of a `DictReader` row dict are exactly the header fieldnames:
the padding guarantees the value list is at least as long as the header. -/
theorem makeDict_keys (fieldnames r : List String) :
    (makeDict fieldnames r).map Prod.fst = fieldnames := by
  unfold makeDict
  apply List.map_fst_zip
  simp only [List.length_append, List.length_map, List.length_replicate]
  omega

/-- Key presence in a row dict only depends on the header. -/
theorem hasKey_makeDict (fieldnames r : List String) (k : String) :
    hasKey (makeDict fieldnames r) k = fieldnames.contains k := by
  unfold hasKey
  rw [makeDict_keys]

/-- C6 fails on the code: parsing a 3-row CSV with header `name,email` in
which the second row has no email cell, the loader keeps all 3 rows — the
`DictReader` dict still has the `email` key (with a null value), so the
`"email" in row` test passes — instead of the claimed 2. -/
theorem read_csv_missing_value_cex :
    (read_csv ["name", "email"]
      [["alice", "a@x.com"], ["bob"], ["carol", "c@x.com"]]).length = 3
    ∧ getValue (makeDict ["name", "email"] ["bob"]) "email" = some none
    ∧ (read_csv ["name", "email"]
      [["alice", "a@x.com"], ["bob"], ["carol", "c@x.com"]]).length ≠ 2 :=
  ⟨by decide, by decide, by decide⟩

/-- C6 amended: the filter tests key presence, and `DictReader` gives every
non-blank row all header columns as keys; so when the header contains both
`name` and `email` every non-blank parsed row is retained, in order — rows
missing a name or email value included — and when the header lacks either
column every row is dropped. -/
theorem read_csv_amended (fieldnames : List String) (rows : List (List String)) :
    ("name" ∈ fieldnames → "email" ∈ fieldnames →
      read_csv fieldnames rows
        = (rows.filter (fun r => !r.isEmpty)).map (makeDict fieldnames))
    ∧ (("name" ∉ fieldnames ∨ "email" ∉ fieldnames) → read_csv fieldnames rows = []) := by
  constructor
  · intro hn he
    unfold read_csv
    apply List.filter_eq_self.mpr
    intro row hrow
    obtain ⟨r, _, hr⟩ := List.mem_map.mp hrow
    subst hr
    rw [hasKey_makeDict, hasKey_makeDict]
    simp [hn, he]
  · intro h
    unfold read_csv
    apply List.filter_eq_nil_iff.mpr
    intro row hrow
    obtain ⟨r, _, hr⟩ := List.mem_map.mp hrow
    subst hr
    rw [hasKey_makeDict, hasKey_makeDict]
    rcases h with h | h <;> simp [h]

/-- Witness for the amended C6 theorem on a concrete one-row CSV. -/
theorem read_csv_amended_witness :
    read_csv ["name", "email"] [["alice", "a@x.com"]]
      = ([["alice", "a@x.com"]].filter (fun r => !r.isEmpty)).map
          (makeDict ["name", "email"]) :=
  (read_csv_amended ["name", "email"] [["alice", "a@x.com"]]).1
    (by decide) (by decide)

/-! ## C7 and C10: missing required arguments -/

/-- When the missing-argument list is non-empty, the run stops with the
error message listing it, exit status 1, and produces no output. -/
theorem run_missing_error (a : CliArgs) (fieldnames : List String)
    (rows : List (List String)) (msg : String) (md : String → String)
    (h : missingArgs a ≠ []) :
    run a fieldnames rows msg md
      = Except.error ("Error: Missing required arguments: "
          ++ pyJoin ", " (missingArgs a), 1) := by
  unfold run
  rw [if_neg]
  simpa [List.isEmpty_iff] using h

/-- When contacts and message are truthy and the subject is not, the
missing list is exactly `--subject` and the run fails accordingly. -/
theorem subject_only_missing (a : CliArgs) (fieldnames : List String)
    (rows : List (List String)) (msg : String) (md : String → String)
    (h1 : truthy a.contacts = true) (h2 : truthy a.message = true)
    (h3 : truthy a.subject = false) :
    missingArgs a = ["--subject"]
    ∧ run a fieldnames rows msg md
        = Except.error ("Error: Missing required arguments: --subject", 1) := by
  have hmiss : missingArgs a = ["--subject"] := by
    unfold missingArgs
    rw [h1, h2, h3]
    rfl
  refine ⟨hmiss, ?_⟩
  rw [run_missing_error a fieldnames rows msg md (by rw [hmiss]; simp)]
  rw [hmiss]
  rfl

/-- C7: whenever a required input is absent, the run reports exactly the
missing named inputs, comma-joined, to the error stream and exits with
status 1, producing no output content; with contacts and message supplied
but the subject missing, only `--subject` is reported. -/
theorem missing_required_args_error :
    (∀ (a : CliArgs) (fieldnames : List String) (rows : List (List String))
        (msg : String) (md : String → String),
      missingArgs a ≠ [] →
      run a fieldnames rows msg md
        = Except.error ("Error: Missing required arguments: "
            ++ pyJoin ", " (missingArgs a), 1)
      ∧ ∀ html, run a fieldnames rows msg md ≠ Except.ok html)
    ∧ (∀ (a : CliArgs) (fieldnames : List String) (rows : List (List String))
        (msg : String) (md : String → String),
      truthy a.contacts = true → truthy a.message = true → truthy a.subject = false →
      missingArgs a = ["--subject"]
      ∧ run a fieldnames rows msg md
          = Except.error ("Error: Missing required arguments: --subject", 1)) := by
  constructor
  · intro a fieldnames rows msg md h
    refine ⟨run_missing_error a fieldnames rows msg md h, ?_⟩
    intro html
    rw [run_missing_error a fieldnames rows msg md h]
    simp
  · exact subject_only_missing

/-- Witness for C7: contacts and message supplied, subject absent. -/
theorem missing_required_args_error_witness :
    missingArgs ⟨some "contacts.csv", some "message.txt", none, none, "", false⟩
      = ["--subject"]
    ∧ run ⟨some "contacts.csv", some "message.txt", none, none, "", false⟩
        ["name", "email"] [["alice", "a@x.com"]] "Hello" id
      = Except.error ("Error: Missing required arguments: --subject", 1) :=
  missing_required_args_error.2
    ⟨some "contacts.csv", some "message.txt", none, none, "", false⟩
    ["name", "email"] [["alice", "a@x.com"]] "Hello" id rfl rfl rfl

/-- C10: an empty string supplied for a required argument is treated
exactly like an absent argument, because the presence check tests Python
truthiness: with contacts and message supplied and `--subject ''`, only
`--subject` is reported missing and the run exits with status 1. -/
theorem empty_string_arg_treated_as_missing
    (c m : String) (out : Option String) (cc : String) (hb : Bool)
    (fieldnames : List String) (rows : List (List String)) (msg : String)
    (md : String → String) (hc : c ≠ "") (hm : m ≠ "") :
    missingArgs ⟨some c, some m, some "", out, cc, hb⟩ = ["--subject"]
    ∧ run ⟨some c, some m, some "", out, cc, hb⟩ fieldnames rows msg md
        = Except.error ("Error: Missing required arguments: --subject", 1) := by
  have h1 : truthy (some c) = true := by simp [truthy, hc]
  have h2 : truthy (some m) = true := by simp [truthy, hm]
  have h3 : truthy (some "") = false := rfl
  exact subject_only_missing ⟨some c, some m, some "", out, cc, hb⟩
    fieldnames rows msg md h1 h2 h3

/-- Witness for C10 at concrete paths. -/
theorem empty_string_arg_treated_as_missing_witness :
    missingArgs ⟨some "contacts.csv", some "message.txt", some "", none, "", false⟩
      = ["--subject"]
    ∧ run ⟨some "contacts.csv", some "message.txt", some "", none, "", false⟩
        ["name", "email"] [["alice", "a@x.com"]] "Hello" id
      = Except.error ("Error: Missing required arguments: --subject", 1) :=
  empty_string_arg_treated_as_missing "contacts.csv" "message.txt" none "" false
    ["name", "email"] [["alice", "a@x.com"]] "Hello" id
    (by decide) (by decide)

/-! ## C8: one list item per contact, in order -/

/-- Every generated item line starts with `<li`. -/
theorem isListItemLine_listItem (i : Nat) (n e message subject : String)
    (cc_list : List String) (u : Bool) :
    isListItemLine (listItem i n e message subject cc_list u) = true := by
  unfold isListItemLine listItem
  apply decide_eq_true
  simp only [String.data_append, List.append_assoc]
  rw [List.take_append_of_le_length (by decide)]
  decide

/-- C8: for every contact list, the rendered page's list-item lines are
exactly one per contact, in input order (the i-th item line is built from
the i-th contact), so their number equals the number of contacts. -/
theorem rendered_page_list_items (contacts : List (String × String))
    (message subject : String) (cc_list : List String) (u : Bool) :
    (htmlLines contacts message subject cc_list u).filter isListItemLine
      = contacts.enum.map (fun p =>
          listItem p.1 p.2.1 p.2.2 message subject cc_list u)
    ∧ ((htmlLines contacts message subject cc_list u).filter isListItemLine).length
        = contacts.length := by
  have hfil : (htmlLines contacts message subject cc_list u).filter isListItemLine
      = contacts.enum.map (fun p =>
          listItem p.1 p.2.1 p.2.2 message subject cc_list u) := by
    unfold htmlLines
    rw [List.filter_append, List.filter_append]
    rw [show htmlHeaderLines.filter isListItemLine = [] from by decide]
    rw [show (["</ul>", "</body>", "</html>"] : List String).filter isListItemLine
      = [] from by decide]
    rw [List.filter_eq_self.mpr ?items]
    · simp
    case items =>
      intro x hx
      obtain ⟨p, _, hp⟩ := List.mem_map.mp hx
      subst hp
      exact isListItemLine_listItem p.1 p.2.1 p.2.2 message subject cc_list u
  exact ⟨hfil, by rw [hfil, List.length_map, List.enum_length]⟩

/-! ## C9: determinism of the whole pipeline -/

/-- C9: the pipeline is a pure function of the parsed arguments, the
contacts file content, the message file content and the markdown converter:
two runs with identical inputs (and no output path) produce byte-identical
output content.  The embedding makes this determinism-by-construction: the
source consults no clock, randomness or other environment. -/
theorem run_deterministic (a1 a2 : CliArgs) (fn1 fn2 : List String)
    (rows1 rows2 : List (List String)) (m1 m2 : String) (md1 md2 : String → String)
    (ha : a1 = a2) (hf : fn1 = fn2) (hr : rows1 = rows2) (hm : m1 = m2)
    (hmd : md1 = md2) (_hout : a1.output = none) :
    run a1 fn1 rows1 m1 md1 = run a2 fn2 rows2 m2 md2 := by
  subst ha
  subst hf
  subst hr
  subst hm
  subst hmd
  rfl

/-- Witness for C9 at a concrete argument list and contact file. -/
theorem run_deterministic_witness :
    run ⟨some "c.csv", some "m.txt", some "S", none, "", false⟩ ["name", "email"]
        [["Alice", "a@x.com"]] "Hi {{name}}" id
      = run ⟨some "c.csv", some "m.txt", some "S", none, "", false⟩ ["name", "email"]
        [["Alice", "a@x.com"]] "Hi {{name}}" id :=
  run_deterministic ⟨some "c.csv", some "m.txt", some "S", none, "", false⟩
    ⟨some "c.csv", some "m.txt", some "S", none, "", false⟩ ["name", "email"]
    ["name", "email"] [["Alice", "a@x.com"]] [["Alice", "a@x.com"]]
    "Hi {{name}}" "Hi {{name}}" id id rfl rfl rfl rfl rfl rfl

end MailMerge
